import Mathlib

/-!
Verification of `net/dtlslistener.go` of the go-coap repository.

The file shallowly embeds the DTLS listener adapter: the background
accept pump (`acceptLoop`), the deadline-aware facade (`SetDeadline`,
`Accept`, `AcceptWithContext`) and teardown (`Close`).  Time is modelled
as a natural number of abstract ticks; the Go zero `time.Time` is tick 0
(`IsZero` is `= 0`).  Concurrency is resolved by explicit oracles: a
schedule decides each `select`, and a `SelectEnv` records when (if ever)
the pump's pending send on the rendezvous channel becomes ready.
-/

namespace GoCoapNet

/-- Raw connection handed out by the underlying dtls listener's Accept. -/
structure RawConn where
  id : Nat
deriving DecidableEq, Repr

/-- Modelled from the spec: `NewConnDTLS` (defined outside this file's
source) wraps the raw connection into the connection object handed to the
caller; the object itself is out of scope, so it is an opaque wrapper. -/
structure ConnDTLS where
  raw : RawConn
deriving DecidableEq, Repr

def NewConnDTLS (c : RawConn) : ConnDTLS := ⟨c⟩

/-- Error of the underlying dtls listener (its Accept or Close); the
`temp` flag records how the external classifier would label it. -/
structure UErr where
  code : Nat
  temp : Bool
deriving DecidableEq, Repr

/-- Errors visible in the source: `timeout` is `fmt.Errorf(ioTimeout)`,
`underlying` an error of the external dtls listener, `ctxCause` a
cancellation cause carried by `ctx.Err()`, and `wrapped` is
`fmt.Errorf("cannot accept connections: %v", err)`. -/
inductive GoError where
  | timeout
  | underlying (e : UErr)
  | ctxCause (c : Nat)
  | wrapped (e : GoError)
deriving DecidableEq, Repr

/-- Modelled from the spec: the error-classifier `isTemporary` (defined
outside this file's source) decides whether an error is
transient/timeout-class and worth retrying; the timeout error raised by
`Accept` is a distinguished temporary kind, underlying-listener errors
carry their own classification. -/
def isTemporary : GoError → Bool
  | .timeout => true
  | .underlying e => e.temp
  | _ => false

/-- Go struct `connData`: one outcome of `l.listener.Accept()`. -/
structure ConnData where
  conn : RawConn
  err : Option GoError
deriving DecidableEq, Repr

/-- Run of `acceptLoop` starting at iteration `i` with `fuel` remaining
iterations.  `outs j` is the result of the j-th call of
`l.listener.Accept()`; `sendWins j` says whether at iteration j the
`select` delivers the send on `connCh` (true) or sees `doneCh` closed
(false).  Returns the list of values sent on `connCh`, whether the loop
returned, and how many times `l.listener.Accept()` was called. -/
def acceptLoopRun (outs : Nat → ConnData) (sendWins : Nat → Bool) :
    Nat → Nat → List ConnData × Bool × Nat
  | _, 0 => ([], false, 0)
  | i, fuel + 1 =>
    let d := outs i
    if sendWins i then
      match d.err with
      | some _ => ([d], true, 1)
      | none =>
        let r := acceptLoopRun outs sendWins (i + 1) fuel
        (d :: r.1, r.2.1, r.2.2 + 1)
    else ([], true, 1)

/-- Mutable facade state of `DTLSListener` relevant to the claims: the
`deadline` atomic value (0 = never stored / zero `time.Time`) and whether
`doneCh` has been closed. -/
structure LState where
  deadline : Nat
  doneClosed : Bool
deriving DecidableEq, Repr

/-- Go `SetDeadline`: stores `t` in the atomic value, returns nil. -/
def SetDeadline (s : LState) (t : Nat) : LState × Option GoError :=
  (⟨t, s.doneClosed⟩, none)

/-- Oracle for one `Accept` call's `select`: `arrival` is the absolute
tick at which the pump's pending send on `connCh` becomes ready (none if
it never does), `data` the `connData` it would hand over, and
`tieBreakChan` Go's random choice when the channel case and the
`time.After` case become ready at the same tick. -/
structure SelectEnv where
  arrival : Option Nat
  data : ConnData
  tieBreakChan : Bool
deriving DecidableEq, Repr

/-- Result of one `Accept` call; `blocked` marks the zero-deadline
single-case select never returning. -/
inductive AcceptRes where
  | conn (c : ConnDTLS)
  | err (e : GoError)
  | blocked
deriving DecidableEq, Repr

/-- Body of the `d := <-l.connCh` case of `Accept`'s selects. -/
def fromData (d : ConnData) : AcceptRes :=
  match d.err with
  | some e => .err e
  | none => .conn (NewConnDTLS d.conn)

/-- Absolute tick at which `time.After(deadline.Sub(time.Now()))` fires:
at `deadline` when it is still ahead, immediately (at `now`) when the
duration is zero or negative. -/
def fireAt (deadline now : Nat) : Nat := max deadline now

/-- Go `Accept`: loads the stored deadline; with a zero deadline it
blocks on `connCh` alone, otherwise it races `connCh` against
`time.After(deadline - now)`.  Returns the (unchanged) state, the result,
and whether a channel value was consumed. -/
def Accept (s : LState) (now : Nat) (env : SelectEnv) :
    LState × AcceptRes × Bool :=
  if s.deadline = 0 then
    match env.arrival with
    | none => (s, .blocked, false)
    | some _ => (s, fromData env.data, true)
  else
    match env.arrival with
    | none => (s, .err .timeout, false)
    | some a =>
      if a < fireAt s.deadline now then (s, fromData env.data, true)
      else if fireAt s.deadline now < a then (s, .err .timeout, false)
      else if env.tieBreakChan then (s, fromData env.data, true)
      else (s, .err .timeout, false)

/-- Go `context.Context` as observed by the loop: whether `ctx.Done()`
has fired and what `ctx.Err()` returns. -/
structure Ctx where
  done : Bool
  errv : Option GoError
deriving DecidableEq, Repr

/-- Go `AcceptWithContext` as a fuel-indexed loop.  `ctxAt i`, `nowAt i`
and `envAt i` are the context state, `time.Now()` and the select oracle
observed at iteration `i`.  Returns `none` when the call has not returned
within `fuel` iterations (or blocks forever), otherwise the final state
together with the `(net.Conn, error)` pair. -/
def AcceptWithContext (ctxAt : Nat → Ctx) (heartBeat : Nat)
    (nowAt : Nat → Nat) (envAt : Nat → SelectEnv) :
    LState → Nat → Nat → Option (LState × Option ConnDTLS × Option GoError)
  | _, _, 0 => none
  | s, i, fuel + 1 =>
    if (ctxAt i).done then
      match (ctxAt i).errv with
      | some e => some (s, none, some (.wrapped e))
      | none => some (s, none, none)
    else
      match SetDeadline s (nowAt i + heartBeat) with
      | (s1, some e) => some (s1, none, some (.wrapped e))
      | (s1, none) =>
        match Accept s1 (nowAt i) (envAt i) with
        | (s2, .err e, _) =>
          if isTemporary e then
            AcceptWithContext ctxAt heartBeat nowAt envAt s2 (i + 1) fuel
          else some (s2, none, some (.wrapped e))
        | (s2, .conn c, _) => some (s2, some c, none)
        | (_, .blocked, _) => none

/-- Side effects of `Close` in order. -/
inductive Eff where
  | listenerClose (graceMs : Nat)
  | closeDone
  | waitPump
deriving DecidableEq, Repr

/-- Outcome of a `Close` call: a returned value, or a runtime panic. -/
inductive CloseResult where
  | ok (r : Option GoError)
  | panicked
deriving DecidableEq, Repr

/-- Go `Close`: calls `l.listener.Close(100ms)` (its error given by the
oracle `closeErr`), then `close(l.doneCh)` — which panics if `doneCh` is
already closed — then `l.wg.Wait()`, and returns the listener's close
error. -/
def Close (s : LState) (closeErr : Option GoError) :
    List Eff × LState × CloseResult :=
  if s.doneClosed then
    ([.listenerClose 100], s, .panicked)
  else
    ([.listenerClose 100, .closeDone, .waitPump],
      ⟨s.deadline, true⟩, .ok closeErr)

lemma Accept_fst (s : LState) (now : Nat) (env : SelectEnv) :
    (Accept s now env).1 = s := by
  rcases env with ⟨arr, d, tb⟩
  rcases arr with _ | a <;> unfold Accept <;> dsimp only <;>
    split_ifs <;> rfl

/-- Claim C8: for every time value t, `SetDeadline t` returns a nil error
(it never fails), and its only effect is to store t as the current
deadline read by subsequent Accept calls (the rest of the state is
untouched). -/
theorem setDeadline_stores_never_fails (s : LState) (t : Nat) :
    (SetDeadline s t).2 = none ∧ (SetDeadline s t).1.deadline = t ∧
      (SetDeadline s t).1.doneClosed = s.doneClosed :=
  ⟨rfl, rfl, rfl⟩

/-- Claim C7: on a listener not yet closed, `Close` closes the underlying
transport listener with a bounded 100ms grace period, then signals the
background task (closes `doneCh`) and waits for its termination, in that
order, and returns exactly the underlying listener's close error. -/
theorem close_sequence_returns_error (s : LState) (ce : Option GoError)
    (h : s.doneClosed = false) :
    Close s ce =
      ([.listenerClose 100, .closeDone, .waitPump], ⟨s.deadline, true⟩,
        .ok ce) := by
  simp [Close, h]

theorem close_sequence_returns_error_witness :
    (⟨7, false⟩ : LState).doneClosed = false ∧
      Close ⟨7, false⟩ (some (.underlying ⟨3, false⟩)) =
        ([.listenerClose 100, .closeDone, .waitPump], ⟨7, true⟩,
          .ok (some (.underlying ⟨3, false⟩))) :=
  ⟨rfl, close_sequence_returns_error ⟨7, false⟩
    (some (.underlying ⟨3, false⟩)) rfl⟩

/-- Claim C10: a second `Close` on the same listener handle does not
return normally: the first call returns the close error, the second
closes the already-closed `doneCh` and panics. -/
theorem close_twice_panics (s : LState) (ce ce2 : Option GoError)
    (h : s.doneClosed = false) :
    (Close s ce).2.2 = .ok ce ∧
      (Close (Close s ce).2.1 ce2).2.2 = .panicked := by
  simp [Close, h]

theorem close_twice_panics_witness :
    (⟨0, false⟩ : LState).doneClosed = false ∧
      ((Close (⟨0, false⟩ : LState) none).2.2 = .ok none ∧
        (Close (Close (⟨0, false⟩ : LState) none).2.1 none).2.2 =
          .panicked) :=
  ⟨rfl, close_twice_panics ⟨0, false⟩ none none rfl⟩

/-- Claim C5: with a set (non-zero) deadline, `Accept` races the channel
read against a timer firing at `fireAt deadline now`; whenever the timer
fires strictly before the channel send becomes ready (or the send never
does), it returns the timeout error without consuming a channel result;
and a deadline at or before the current time makes the timer fire
immediately (at `now`) rather than block. -/
theorem accept_timer_first_timeout (s : LState) (now : Nat)
    (env : SelectEnv) (hd : s.deadline ≠ 0) :
    (env.arrival = none → (Accept s now env).2 = (.err .timeout, false)) ∧
      (∀ a, env.arrival = some a → fireAt s.deadline now < a →
        (Accept s now env).2 = (.err .timeout, false)) ∧
      (s.deadline ≤ now → fireAt s.deadline now = now) := by
  refine ⟨?_, ?_, ?_⟩
  · intro h
    simp [Accept, hd, h]
  · intro a h hlt
    have h1 : ¬ a < fireAt s.deadline now := by omega
    simp [Accept, hd, h, h1, hlt]
  · intro h
    simp [fireAt]
    omega

theorem accept_timer_first_timeout_witness :
    ((⟨5, false⟩ : LState).deadline ≠ 0) ∧
      (((⟨some 9, ⟨⟨0⟩, none⟩, true⟩ : SelectEnv).arrival = none →
          (Accept ⟨5, false⟩ 3 ⟨some 9, ⟨⟨0⟩, none⟩, true⟩).2 =
            (.err .timeout, false)) ∧
        (∀ a, (⟨some 9, ⟨⟨0⟩, none⟩, true⟩ : SelectEnv).arrival = some a →
          fireAt (⟨5, false⟩ : LState).deadline 3 < a →
          (Accept ⟨5, false⟩ 3 ⟨some 9, ⟨⟨0⟩, none⟩, true⟩).2 =
            (.err .timeout, false)) ∧
        ((⟨5, false⟩ : LState).deadline ≤ 3 →
          fireAt (⟨5, false⟩ : LState).deadline 3 = 3)) :=
  ⟨by decide, accept_timer_first_timeout ⟨5, false⟩ 3
    ⟨some 9, ⟨⟨0⟩, none⟩, true⟩ (by decide)⟩

/-- Claim C4: with the stored deadline unset (zero, including when
`SetDeadline` was never called), `Accept` blocks until the rendezvous
channel yields: if the send never becomes ready it blocks forever,
otherwise it consumes the result and returns the connection (on success)
or the pump's error; it never returns the timeout error for channel data
produced by the pump. -/
theorem accept_zero_deadline_blocks (s : LState) (now : Nat)
    (env : SelectEnv) (hd : s.deadline = 0) :
    (env.arrival = none → (Accept s now env).2.1 = .blocked) ∧
      (env.arrival.isSome → env.data.err = none →
        (Accept s now env).2 = (.conn (NewConnDTLS env.data.conn), true)) ∧
      (∀ e, env.arrival.isSome → env.data.err = some e →
        (Accept s now env).2 = (.err e, true)) ∧
      ((env.data.err = none ∨ ∃ u, env.data.err = some (.underlying u)) →
        (Accept s now env).2.1 ≠ .err .timeout) := by
  refine ⟨?_, ?_, ?_, ?_⟩
  · intro h
    simp [Accept, hd, h]
  · intro ha he
    rcases env with ⟨arr, d, tb⟩
    rcases arr with _ | a
    · simp at ha
    · simp at he ⊢
      simp [Accept, hd, fromData, he]
  · intro e ha he
    rcases env with ⟨arr, d, tb⟩
    rcases arr with _ | a
    · simp at ha
    · simp at he ⊢
      simp [Accept, hd, fromData, he]
  · intro hsrc
    rcases env with ⟨arr, d, tb⟩
    rcases arr with _ | a
    · simp [Accept, hd]
    · rcases hsrc with he | ⟨u, he⟩ <;>
        simp_all [Accept, hd, fromData]

theorem accept_zero_deadline_blocks_witness :
    ((⟨0, false⟩ : LState).deadline = 0) ∧
      (((⟨some 4, ⟨⟨2⟩, none⟩, false⟩ : SelectEnv).arrival = none →
          (Accept ⟨0, false⟩ 9 ⟨some 4, ⟨⟨2⟩, none⟩, false⟩).2.1 =
            .blocked) ∧
        ((⟨some 4, ⟨⟨2⟩, none⟩, false⟩ : SelectEnv).arrival.isSome →
          (⟨some 4, ⟨⟨2⟩, none⟩, false⟩ : SelectEnv).data.err = none →
          (Accept ⟨0, false⟩ 9 ⟨some 4, ⟨⟨2⟩, none⟩, false⟩).2 =
            (.conn (NewConnDTLS
              (⟨some 4, ⟨⟨2⟩, none⟩, false⟩ : SelectEnv).data.conn),
              true)) ∧
        (∀ e, (⟨some 4, ⟨⟨2⟩, none⟩, false⟩ : SelectEnv).arrival.isSome →
          (⟨some 4, ⟨⟨2⟩, none⟩, false⟩ : SelectEnv).data.err = some e →
          (Accept ⟨0, false⟩ 9 ⟨some 4, ⟨⟨2⟩, none⟩, false⟩).2 =
            (.err e, true)) ∧
        (((⟨some 4, ⟨⟨2⟩, none⟩, false⟩ : SelectEnv).data.err = none ∨
            ∃ u, (⟨some 4, ⟨⟨2⟩, none⟩, false⟩ : SelectEnv).data.err =
              some (.underlying u)) →
          (Accept ⟨0, false⟩ 9 ⟨some 4, ⟨⟨2⟩, none⟩, false⟩).2.1 ≠
            .err .timeout)) :=
  ⟨rfl, accept_zero_deadline_blocks ⟨0, false⟩ 9
    ⟨some 4, ⟨⟨2⟩, none⟩, false⟩ rfl⟩

/-- Claim C9 counterexample: the deadline is set to tick 5 by
`SetDeadline` and has passed (now = 10), no `SetDeadline` intervenes, yet
`Accept` returns a connection whose send was already pending (ready since
tick 8, before the expired timer fires at tick 10) instead of the timeout
error the claim promises. -/
theorem accept_after_deadline_counterexample :
    (SetDeadline ⟨0, false⟩ 5).1 = ⟨5, false⟩ ∧
      (Accept ⟨5, false⟩ 10 ⟨some 8, ⟨⟨3⟩, none⟩, true⟩).2.1 =
        .conn (NewConnDTLS ⟨3⟩) ∧
      AcceptRes.conn (NewConnDTLS ⟨3⟩) ≠ .err .timeout :=
  ⟨rfl, rfl, by decide⟩

/-- Claim C9 (amended): `Accept` never modifies the stored deadline and
`SetDeadline` overwrites it, so a deadline persists across Accept calls
until the next `SetDeadline`; once the deadline has passed, the timer of
any further Accept fires immediately (at `now`), so the call returns the
timeout error whenever no channel result is ready by then — but a channel
result already pending may be returned instead. -/
theorem accept_frame_past_deadline (s : LState) (t now : Nat)
    (env : SelectEnv) (hd : s.deadline ≠ 0) (hpast : s.deadline ≤ now) :
    (Accept s now env).1 = s ∧
      (SetDeadline s t).1.deadline = t ∧
      fireAt s.deadline now = now ∧
      (env.arrival = none → (Accept s now env).2 = (.err .timeout, false)) ∧
      (∀ a, env.arrival = some a → now < a →
        (Accept s now env).2 = (.err .timeout, false)) := by
  have hfire : fireAt s.deadline now = now := by
    simp [fireAt]; omega
  refine ⟨Accept_fst s now env, rfl, hfire, ?_, ?_⟩
  · intro h
    simp [Accept, hd, h]
  · intro a h hlt
    have h1 : ¬ a < fireAt s.deadline now := by omega
    have h2 : fireAt s.deadline now < a := by omega
    simp [Accept, hd, h, h1, h2]

theorem accept_frame_past_deadline_witness :
    ((⟨5, false⟩ : LState).deadline ≠ 0) ∧
      ((⟨5, false⟩ : LState).deadline ≤ 10) ∧
      ((Accept ⟨5, false⟩ 10 ⟨none, ⟨⟨0⟩, none⟩, true⟩).1 = ⟨5, false⟩ ∧
        (SetDeadline (⟨5, false⟩ : LState) 42).1.deadline = 42 ∧
        fireAt (⟨5, false⟩ : LState).deadline 10 = 10 ∧
        ((⟨none, ⟨⟨0⟩, none⟩, true⟩ : SelectEnv).arrival = none →
          (Accept ⟨5, false⟩ 10 ⟨none, ⟨⟨0⟩, none⟩, true⟩).2 =
            (.err .timeout, false)) ∧
        (∀ a, (⟨none, ⟨⟨0⟩, none⟩, true⟩ : SelectEnv).arrival = some a →
          10 < a →
          (Accept ⟨5, false⟩ 10 ⟨none, ⟨⟨0⟩, none⟩, true⟩).2 =
            (.err .timeout, false))) :=
  ⟨by decide, by decide, accept_frame_past_deadline ⟨5, false⟩ 42 10
    ⟨none, ⟨⟨0⟩, none⟩, true⟩ (by decide) (by decide)⟩

/-- Claim C2 counterexample: the underlying accept yields the fatal
(non-temporary) error `underlying ⟨7, false⟩`; the pump forwards it once
and terminates, and the Accept call that consumes the channel returns
that error — but the next Accept call (channel empty forever, deadline 5,
now 6) returns the timeout error, not that error, refuting "every
subsequent call to Accept returns that error". -/
theorem fatal_error_counterexample :
    acceptLoopRun (fun _ => ⟨⟨0⟩, some (.underlying ⟨7, false⟩)⟩)
        (fun _ => true) 0 5 =
      ([⟨⟨0⟩, some (.underlying ⟨7, false⟩)⟩], true, 1) ∧
      (Accept ⟨5, false⟩ 1
          ⟨some 1, ⟨⟨0⟩, some (.underlying ⟨7, false⟩)⟩, true⟩).2.1 =
        .err (.underlying ⟨7, false⟩) ∧
      (Accept ⟨5, false⟩ 6 ⟨none, ⟨⟨0⟩, none⟩, true⟩).2.1 =
        .err .timeout ∧
      GoError.timeout ≠ GoError.underlying ⟨7, false⟩ :=
  ⟨rfl, rfl, rfl, by decide⟩

/-- Claim C1: when the context's cancellation signal has already fired at
entry, `AcceptWithContext` returns (no connection, no error) if the
cancellation cause is graceful (`ctx.Err()` nil), and an error wrapping
the cancellation cause otherwise — in either case without touching the
deadline or calling `Accept`. -/
theorem acceptWithContext_precancelled (ctxAt : Nat → Ctx) (hb : Nat)
    (nowAt : Nat → Nat) (envAt : Nat → SelectEnv) (s : LState)
    (fuel : Nat) (h : (ctxAt 0).done = true) :
    ((ctxAt 0).errv = none →
        AcceptWithContext ctxAt hb nowAt envAt s 0 (fuel + 1) =
          some (s, none, none)) ∧
      (∀ e, (ctxAt 0).errv = some e →
        AcceptWithContext ctxAt hb nowAt envAt s 0 (fuel + 1) =
          some (s, none, some (.wrapped e))) := by
  constructor
  · intro he
    simp [AcceptWithContext, h, he]
  · intro e he
    simp [AcceptWithContext, h, he]

theorem acceptWithContext_precancelled_witness :
    ((fun _ => (⟨true, none⟩ : Ctx)) 0).done = true ∧
      ((((fun _ => (⟨true, none⟩ : Ctx)) 0).errv = none →
          AcceptWithContext (fun _ => ⟨true, none⟩) 50 (fun _ => 100)
              (fun _ => ⟨none, ⟨⟨0⟩, none⟩, true⟩) ⟨0, false⟩ 0 (2 + 1) =
            some (⟨0, false⟩, none, none)) ∧
        (∀ e, ((fun _ => (⟨true, none⟩ : Ctx)) 0).errv = some e →
          AcceptWithContext (fun _ => ⟨true, none⟩) 50 (fun _ => 100)
              (fun _ => ⟨none, ⟨⟨0⟩, none⟩, true⟩) ⟨0, false⟩ 0 (2 + 1) =
            some (⟨0, false⟩, none, some (.wrapped e)))) :=
  ⟨rfl, acceptWithContext_precancelled (fun _ => ⟨true, none⟩) 50
    (fun _ => 100) (fun _ => ⟨none, ⟨⟨0⟩, none⟩, true⟩) ⟨0, false⟩ 2 rfl⟩

/-- Claim C3: in `AcceptWithContext`, an `Accept` failure classified as
temporary makes the loop continue to the next iteration (re-checking the
context first), a non-temporary `Accept` error returns immediately
wrapped, and any error ever returned by `AcceptWithContext` is a wrapped
one — the caller never receives the raw timeout error. -/
theorem acceptWithContext_retry_wrap (ctxAt : Nat → Ctx) (hb : Nat)
    (nowAt : Nat → Nat) (envAt : Nat → SelectEnv) :
    (∀ s i fuel e, (ctxAt i).done = false →
        (Accept (SetDeadline s (nowAt i + hb)).1 (nowAt i)
            (envAt i)).2.1 = .err e →
        isTemporary e = true →
        AcceptWithContext ctxAt hb nowAt envAt s i (fuel + 1) =
          AcceptWithContext ctxAt hb nowAt envAt
            (SetDeadline s (nowAt i + hb)).1 (i + 1) fuel) ∧
      (∀ s i fuel e, (ctxAt i).done = false →
        (Accept (SetDeadline s (nowAt i + hb)).1 (nowAt i)
            (envAt i)).2.1 = .err e →
        isTemporary e = false →
        AcceptWithContext ctxAt hb nowAt envAt s i (fuel + 1) =
          some ((SetDeadline s (nowAt i + hb)).1, none,
            some (.wrapped e))) ∧
      (∀ s i fuel r c e,
        AcceptWithContext ctxAt hb nowAt envAt s i fuel =
          some (r, c, some e) → ∃ e2, e = .wrapped e2) := by
  refine ⟨?_, ?_, ?_⟩
  · intro s i fuel e hdone hacc ht
    simp only [SetDeadline] at hacc ⊢
    rcases hA : Accept ⟨nowAt i + hb, s.doneClosed⟩ (nowAt i) (envAt i)
      with ⟨s2, res, cons⟩
    have hs2 : s2 = ⟨nowAt i + hb, s.doneClosed⟩ := by
      have hf := Accept_fst ⟨nowAt i + hb, s.doneClosed⟩ (nowAt i) (envAt i)
      rw [hA] at hf
      exact hf
    have hres : res = .err e := by
      rw [hA] at hacc
      exact hacc
    subst hs2 hres
    simp [AcceptWithContext, SetDeadline, hdone, hA, ht]
  · intro s i fuel e hdone hacc ht
    simp only [SetDeadline] at hacc ⊢
    rcases hA : Accept ⟨nowAt i + hb, s.doneClosed⟩ (nowAt i) (envAt i)
      with ⟨s2, res, cons⟩
    have hs2 : s2 = ⟨nowAt i + hb, s.doneClosed⟩ := by
      have hf := Accept_fst ⟨nowAt i + hb, s.doneClosed⟩ (nowAt i) (envAt i)
      rw [hA] at hf
      exact hf
    have hres : res = .err e := by
      rw [hA] at hacc
      exact hacc
    subst hs2 hres
    simp [AcceptWithContext, SetDeadline, hdone, hA, ht]
  · intro s i fuel
    induction fuel generalizing s i with
    | zero =>
      intro r c e h
      simp [AcceptWithContext] at h
    | succ n ih =>
      intro r c e h
      by_cases hdone : (ctxAt i).done = true
      · rcases he : (ctxAt i).errv with _ | e0
        · simp [AcceptWithContext, hdone, he] at h
        · simp [AcceptWithContext, hdone, he] at h
          exact ⟨e0, h.2.2.symm⟩
      · simp only [Bool.not_eq_true] at hdone
        rcases hA : Accept ⟨nowAt i + hb, s.doneClosed⟩ (nowAt i) (envAt i)
          with ⟨s2, res, cons⟩
        rcases res with c0 | e0 | _
        · simp [AcceptWithContext, hdone, SetDeadline, hA] at h
        · by_cases ht : isTemporary e0 = true
          · simp [AcceptWithContext, hdone, SetDeadline, hA, ht] at h
            exact ih s2 (i + 1) r c e h
          · simp only [Bool.not_eq_true] at ht
            simp [AcceptWithContext, hdone, SetDeadline, hA, ht] at h
            exact ⟨e0, h.2.2.symm⟩
        · simp [AcceptWithContext, hdone, SetDeadline, hA] at h

theorem acceptWithContext_retry_wrap_witness :
    (AcceptWithContext (fun _ => ⟨false, none⟩) 50 (fun _ => 100)
        (fun i => if i = 0 then ⟨none, ⟨⟨0⟩, none⟩, true⟩
          else ⟨some 120, ⟨⟨1⟩, some (.underlying ⟨7, false⟩)⟩, true⟩)
        ⟨0, false⟩ 0 3 =
      AcceptWithContext (fun _ => ⟨false, none⟩) 50 (fun _ => 100)
        (fun i => if i = 0 then ⟨none, ⟨⟨0⟩, none⟩, true⟩
          else ⟨some 120, ⟨⟨1⟩, some (.underlying ⟨7, false⟩)⟩, true⟩)
        ⟨150, false⟩ 1 2) ∧
      (AcceptWithContext (fun _ => ⟨false, none⟩) 50 (fun _ => 100)
          (fun i => if i = 0 then ⟨none, ⟨⟨0⟩, none⟩, true⟩
            else ⟨some 120, ⟨⟨1⟩, some (.underlying ⟨7, false⟩)⟩, true⟩)
          ⟨0, false⟩ 1 3 =
        some (⟨150, false⟩, none,
          some (.wrapped (.underlying ⟨7, false⟩)))) ∧
      (∃ e2, GoError.wrapped (.underlying ⟨7, false⟩) = .wrapped e2) :=
  ⟨(acceptWithContext_retry_wrap (fun _ => ⟨false, none⟩) 50 (fun _ => 100)
      (fun i => if i = 0 then ⟨none, ⟨⟨0⟩, none⟩, true⟩
        else ⟨some 120, ⟨⟨1⟩, some (.underlying ⟨7, false⟩)⟩, true⟩)).1
      ⟨0, false⟩ 0 2 .timeout rfl rfl rfl,
    (acceptWithContext_retry_wrap (fun _ => ⟨false, none⟩) 50
      (fun _ => 100)
      (fun i => if i = 0 then ⟨none, ⟨⟨0⟩, none⟩, true⟩
        else ⟨some 120, ⟨⟨1⟩, some (.underlying ⟨7, false⟩)⟩, true⟩)).2.1
      ⟨0, false⟩ 1 2 (.underlying ⟨7, false⟩) rfl rfl rfl,
    (acceptWithContext_retry_wrap (fun _ => ⟨false, none⟩) 50
      (fun _ => 100)
      (fun i => if i = 0 then ⟨none, ⟨⟨0⟩, none⟩, true⟩
        else ⟨some 120, ⟨⟨1⟩, some (.underlying ⟨7, false⟩)⟩, true⟩)).2.2
      ⟨0, false⟩ 1 1 ⟨150, false⟩ none
      (.wrapped (.underlying ⟨7, false⟩)) rfl⟩

/-- Claim C6: in every run of the accept pump, each underlying accept
call results in exactly one of a send on the rendezvous channel or an
exit on the done-signal (the accept-call count is the send count, plus
one exactly when the pump exited on the done-signal); error outcomes can
only be the last send; and once an error outcome is forwarded the pump
has terminated and the underlying accept is never called again. -/
theorem acceptLoop_one_send_or_exit (outs : Nat → ConnData)
    (sendWins : Nat → Bool) (i fuel : Nat) (sent : List ConnData)
    (term : Bool) (calls : Nat)
    (h : acceptLoopRun outs sendWins i fuel = (sent, term, calls)) :
    (calls = sent.length ∨ (calls = sent.length + 1 ∧ term = true)) ∧
      (∀ d ∈ sent.dropLast, d.err = none) ∧
      ((∃ d ∈ sent, d.err.isSome) → term = true ∧ calls = sent.length) := by
  induction fuel generalizing i sent term calls with
  | zero =>
    simp [acceptLoopRun] at h
    obtain ⟨h1, h2, h3⟩ := h
    subst h1
    subst h2
    subst h3
    simp
  | succ n ih =>
    by_cases hw : sendWins i = true
    · rcases he : (outs i).err with _ | e0
      · simp [acceptLoopRun, hw, he] at h
        obtain ⟨h1, h2, h3⟩ := h
        subst h1
        subst h2
        subst h3
        have IH := ih (i + 1) (acceptLoopRun outs sendWins (i + 1) n).1
          (acceptLoopRun outs sendWins (i + 1) n).2.1
          (acceptLoopRun outs sendWins (i + 1) n).2.2 rfl
        refine ⟨?_, ?_, ?_⟩
        · rcases IH.1 with hc | ⟨hc, ht⟩
          · left
            simp [hc]
          · right
            simp [hc, ht]
        · intro d hd
          rcases hr : (acceptLoopRun outs sendWins (i + 1) n).1
            with _ | ⟨x, xs⟩
          · rw [hr] at hd
            simp at hd
          · rw [hr] at hd
            rw [List.dropLast_cons₂] at hd
            rcases List.mem_cons.1 hd with rfl | hd2
            · exact he
            · have h2a := IH.2.1
              rw [hr] at h2a
              exact h2a d hd2
        · rintro ⟨d, hd, hds⟩
          rcases List.mem_cons.1 hd with rfl | hd2
          · rw [he] at hds
            simp at hds
          · have h3 := IH.2.2 ⟨d, hd2, hds⟩
            exact ⟨h3.1, by simp [h3.2]⟩
      · simp [acceptLoopRun, hw, he] at h
        obtain ⟨h1, h2, h3⟩ := h
        subst h1
        subst h2
        subst h3
        refine ⟨by simp, by simp, fun _ => ⟨rfl, by simp⟩⟩
    · simp only [Bool.not_eq_true] at hw
      simp [acceptLoopRun, hw] at h
      obtain ⟨h1, h2, h3⟩ := h
      subst h1
      subst h2
      subst h3
      exact ⟨Or.inr ⟨rfl, rfl⟩, by simp, by simp⟩

theorem acceptLoop_one_send_or_exit_witness :
    acceptLoopRun
        (fun j => if j < 2 then ⟨⟨j⟩, none⟩
          else ⟨⟨9⟩, some (.underlying ⟨7, false⟩)⟩)
        (fun _ => true) 0 5 =
      ([⟨⟨0⟩, none⟩, ⟨⟨1⟩, none⟩, ⟨⟨9⟩, some (.underlying ⟨7, false⟩)⟩],
        true, 3) ∧
      ((3 = ([⟨⟨0⟩, none⟩, ⟨⟨1⟩, none⟩,
            (⟨⟨9⟩, some (.underlying ⟨7, false⟩)⟩ : ConnData)] :
            List ConnData).length ∨
          (3 = ([⟨⟨0⟩, none⟩, ⟨⟨1⟩, none⟩,
            (⟨⟨9⟩, some (.underlying ⟨7, false⟩)⟩ : ConnData)] :
            List ConnData).length + 1 ∧ true = true)) ∧
        (∀ d ∈ ([⟨⟨0⟩, none⟩, ⟨⟨1⟩, none⟩,
            (⟨⟨9⟩, some (.underlying ⟨7, false⟩)⟩ : ConnData)] :
            List ConnData).dropLast, d.err = none) ∧
        ((∃ d ∈ ([⟨⟨0⟩, none⟩, ⟨⟨1⟩, none⟩,
            (⟨⟨9⟩, some (.underlying ⟨7, false⟩)⟩ : ConnData)] :
            List ConnData), d.err.isSome) →
          true = true ∧
            3 = ([⟨⟨0⟩, none⟩, ⟨⟨1⟩, none⟩,
              (⟨⟨9⟩, some (.underlying ⟨7, false⟩)⟩ : ConnData)] :
              List ConnData).length)) :=
  ⟨rfl, acceptLoop_one_send_or_exit
    (fun j => if j < 2 then ⟨⟨j⟩, none⟩
      else ⟨⟨9⟩, some (.underlying ⟨7, false⟩)⟩)
    (fun _ => true) 0 5
    [⟨⟨0⟩, none⟩, ⟨⟨1⟩, none⟩, ⟨⟨9⟩, some (.underlying ⟨7, false⟩)⟩]
    true 3 rfl⟩

/-- Claim C2 (amended): after the underlying accept returns an error, the
pump forwards it once on the rendezvous channel and terminates without
calling the underlying accept again; the Accept call that consumes that
forwarded result returns exactly that error (not a timeout); but any
later Accept finds the channel empty and, with a set deadline, returns
the timeout error instead. -/
theorem fatal_error_forward_once (outs : Nat → ConnData)
    (sendWins : Nat → Bool) (i fuel : Nat) (e : GoError)
    (he : (outs i).err = some e) (hw : sendWins i = true) :
    acceptLoopRun outs sendWins i (fuel + 1) = ([outs i], true, 1) ∧
      (∀ s now env a, s.deadline ≠ 0 → env.data = outs i →
        env.arrival = some a → a < fireAt s.deadline now →
        (Accept s now env).2 = (.err e, true)) ∧
      (∀ s now env, s.deadline ≠ 0 → env.arrival = none →
        (Accept s now env).2 = (.err .timeout, false)) := by
  refine ⟨?_, ?_, ?_⟩
  · simp [acceptLoopRun, hw, he]
  · intro s now env a hd hdata ha hlt
    simp [Accept, hd, ha, hlt, fromData, hdata, he]
  · intro s now env hd ha
    simp [Accept, hd, ha]

theorem fatal_error_forward_once_witness :
    ((fun _ => (⟨⟨0⟩, some (.underlying ⟨9, false⟩)⟩ : ConnData)) 0).err =
        some (.underlying ⟨9, false⟩) ∧
      (acceptLoopRun (fun _ => ⟨⟨0⟩, some (.underlying ⟨9, false⟩)⟩)
          (fun _ => true) 0 5 =
        ([⟨⟨0⟩, some (.underlying ⟨9, false⟩)⟩], true, 1) ∧
        (∀ s now env a, s.deadline ≠ 0 →
          env.data =
            (fun _ => (⟨⟨0⟩, some (.underlying ⟨9, false⟩)⟩ : ConnData)) 0 →
          env.arrival = some a → a < fireAt s.deadline now →
          (Accept s now env).2 = (.err (.underlying ⟨9, false⟩), true)) ∧
        (∀ s now env, s.deadline ≠ 0 → env.arrival = none →
          (Accept s now env).2 = (.err .timeout, false))) :=
  ⟨rfl, fatal_error_forward_once
    (fun _ => ⟨⟨0⟩, some (.underlying ⟨9, false⟩)⟩) (fun _ => true) 0 4
    (.underlying ⟨9, false⟩) rfl rfl⟩

end GoCoapNet
